import Mathlib

/-!
# go-execution: the gRPC proxy client

A shallow embedding of `proxy/grpc/client.go` together with the Go builtins and
library calls it relies on (`copy`, `make`, `range`, `time.Time.Unix`,
`time.Unix`, `context.WithTimeout`).

Conventions of the embedding:

* a Go pointer or interface value that may be nil is an `Option`;
* a Go call that may panic yields an `Outcome` (`returned v` or `panicked`);
* every operation that talks to the service stub also yields the list of wire
  requests it issued, in order (`Run.calls`);
* `uint64` values are natural numbers (the client performs no arithmetic on
  them), `int64` values are integers, wrapped explicitly where Go wraps;
* a `[]byte` whose nil-ness is never observed is a `List Byte`.
-/

namespace GoExecution

/-! ## Builtins -/

/-- A Go `byte`. -/
abbrev Byte := UInt8

/-- Go builtin `copy(dst, src)`: overwrites the first `min(len(dst), len(src))`
elements of `dst` with those of `src`; the result is the updated `dst`. -/
def copy {α : Type} : List α → List α → List α
  | [], _ => []
  | d :: ds, [] => d :: ds
  | _ :: ds, s :: ss => s :: copy ds ss

/-- Go builtin `make([]T, n)`: a slice of `n` zero values. -/
def make {α : Type} (zero : α) (n : Nat) : List α :=
  List.replicate n zero

/-- The loop `for i, x := range src { dst[i] = x }`, started at index `i`. -/
def rangeAssignFrom {α : Type} : Nat → List α → List α → List α
  | _, dst, [] => dst
  | i, dst, x :: rest => rangeAssignFrom (i + 1) (dst.set i x) rest

/-- The loop `for i, x := range src { dst[i] = x }`. -/
def rangeAssign {α : Type} (dst src : List α) : List α :=
  rangeAssignFrom 0 dst src

/-! ## package types -/

/-- Modelled from the spec: `types.Hash` (package `types` is not among the
sources) is a fixed-length array of 32 bytes. -/
def Hash : Type := { bs : List Byte // bs.length = 32 }

/-- The zero value of `types.Hash`, as in `var h types.Hash` and `types.Hash{}`. -/
def Hash.zero : Hash := ⟨List.replicate 32 0, by simp⟩

/-- The slice expression `h[:]`: the 32 bytes of the array. -/
def Hash.slice (h : Hash) : List Byte := h.val

/-- The statement `copy(h[:], src)` on an array variable `h`: the array keeps
its 32 elements, the leading ones are overwritten. -/
def Hash.copyFrom (h : Hash) (src : List Byte) : Hash :=
  ⟨copy h.val src, by
    have key : ∀ (dst s : List Byte), (copy dst s).length = dst.length := by
      intro dst
      induction dst with
      | nil => intro s; rfl
      | cons d ds ih =>
        intro s
        cases s with
        | nil => rfl
        | cons x xs => simp [copy, ih]
    rw [key]
    exact h.property⟩

/-- Modelled from the spec: `types.Tx` (package `types` is not among the
sources) is an opaque byte sequence. -/
abbrev Tx := List Byte

/-! ## package time -/

/-- A Go `time.Time`, reduced to the instant it denotes: `sec` is the number of
seconds since January 1 of year 1, 00:00:00 UTC (the value of the unexported
`Time.sec()`, an `int64`), `nsec` the nanoseconds within that second. The
location and the monotonic reading do not take part in `Unix()`. -/
structure Time where
  sec : Int
  nsec : Int
  deriving DecidableEq

/-- The values a `time.Time` can hold: `sec` is an `int64`, `nsec` lies in
`[0, 10^9)`. -/
def Time.wf (t : Time) : Prop :=
  -(2 : Int) ^ 63 ≤ t.sec ∧ t.sec < (2 : Int) ^ 63 ∧ 0 ≤ t.nsec ∧ t.nsec < 1000000000

instance (t : Time) : Decidable t.wf := by
  unfold Time.wf
  exact inferInstance

/-- Two-complement wrap-around of `int64` arithmetic. -/
def wrapInt64 (x : Int) : Int :=
  (x + (2 : Int) ^ 63) % (2 : Int) ^ 64 - (2 : Int) ^ 63

/-- The constant `unixToInternal` of package time: seconds from year 1 to 1970. -/
def unixToInternal : Int :=
  (1969 * 365 + 1969 / 4 - 1969 / 100 + 1969 / 400) * 86400

/-- The constant `internalToUnix` of package time. -/
def internalToUnix : Int := -unixToInternal

/-- The method `t.Unix()`: `t.sec() + internalToUnix` in `int64`. Seconds since
the epoch, negative for instants before it. -/
def Time.Unix (t : Time) : Int :=
  wrapInt64 (t.sec + internalToUnix)

/-- The unexported `unixTime(sec, nsec)` of package time. -/
def time.unixTime (sec nsec : Int) : Time :=
  { sec := wrapInt64 (sec + unixToInternal), nsec := nsec }

/-- The function `time.Unix(sec, nsec)`: normalises `nsec` into `[0, 10^9)`,
carrying into `sec`, then builds the instant. -/
def time.Unix (sec nsec : Int) : Time :=
  if nsec < 0 ∨ nsec ≥ 1000000000 then
    let n := Int.tdiv nsec 1000000000
    let sec1 := wrapInt64 (sec + n)
    let nsec1 := nsec - n * 1000000000
    if nsec1 < 0 then
      time.unixTime (wrapInt64 (sec1 - 1)) (nsec1 + 1000000000)
    else
      time.unixTime sec1 nsec1
  else
    time.unixTime sec nsec

/-- A `time.Duration`: a signed count of nanoseconds. -/
abbrev Duration := Int

/-- The constant `time.Second`. -/
def Second : Duration := 1000000000

/-! ## package context -/

/-- A `context.Context`, reduced to its deadline: `none` when the context has no
deadline, `some d` when it expires `d` nanoseconds after the instant at which
the operation under study is entered. -/
structure Context where
  deadline : Option Duration
  deriving DecidableEq

/-- The function `context.Background()`: never cancelled, no deadline. -/
def Background : Context := { deadline := none }

/-- The function `context.WithTimeout(parent, timeout)`: the child expires
`timeout` from now, unless the parent already expires earlier, in which case
the deadline of the parent stays. -/
def WithTimeout (parent : Context) (timeout : Duration) : Context :=
  match parent.deadline with
  | some cur => if cur < timeout then parent else { deadline := some timeout }
  | none => { deadline := some timeout }

/-! ## Wire messages (package pb) -/

/-- A Go `error` value that is not nil. -/
abbrev Error := String

structure InitChainRequest where
  GenesisTime : Int
  InitialHeight : Nat
  ChainId : String
  deriving DecidableEq

structure InitChainResponse where
  StateRoot : List Byte
  MaxBytes : Nat
  deriving DecidableEq

structure GetTxsRequest where
  deriving DecidableEq

structure GetTxsResponse where
  Txs : List (List Byte)
  deriving DecidableEq

structure ExecuteTxsRequest where
  Txs : List (List Byte)
  BlockHeight : Nat
  Timestamp : Int
  PrevStateRoot : List Byte
  deriving DecidableEq

structure ExecuteTxsResponse where
  UpdatedStateRoot : List Byte
  MaxBytes : Nat
  deriving DecidableEq

structure SetFinalRequest where
  BlockHeight : Nat
  deriving DecidableEq

structure SetFinalResponse where
  deriving DecidableEq

/-- The interface `pb.ExecutionServiceClient`: four unary methods, each taking
a context and a request and returning a response pointer and an error. -/
structure ExecutionServiceClient where
  InitChain : Context → InitChainRequest → Option InitChainResponse × Option Error
  GetTxs : Context → GetTxsRequest → Option GetTxsResponse × Option Error
  ExecuteTxs : Context → ExecuteTxsRequest → Option ExecuteTxsResponse × Option Error
  SetFinal : Context → SetFinalRequest → Option SetFinalResponse × Option Error

/-- One request handed to the service stub. -/
inductive WireCall where
  | initChain (ctx : Context) (req : InitChainRequest)
  | getTxs (ctx : Context) (req : GetTxsRequest)
  | executeTxs (ctx : Context) (req : ExecuteTxsRequest)
  | setFinal (ctx : Context) (req : SetFinalRequest)
  deriving DecidableEq

/-- The context a wire request was issued with. -/
def WireCall.ctx : WireCall → Context
  | .initChain ctx _ => ctx
  | .getTxs ctx _ => ctx
  | .executeTxs ctx _ => ctx
  | .setFinal ctx _ => ctx

/-- How a Go call ends: it returns its results, or it panics. -/
inductive Outcome (α : Type) where
  | returned (v : α)
  | panicked

/-- The observable behaviour of one client operation: the wire requests it
issued, in order, and how it ended. -/
structure Run (α : Type) where
  calls : List WireCall
  outcome : Outcome α

/-! ## package grpc (google.golang.org/grpc) -/

/-- A `*grpc.ClientConn` that is not nil. -/
structure ClientConn where
  id : Nat
  deriving DecidableEq

/-- A `grpc.DialOption`. -/
structure DialOption where
  id : Nat
  deriving DecidableEq

/-- The library calls `Start` and `Stop` go through: `grpc.NewClient`,
`pb.NewExecutionServiceClient` and `(*grpc.ClientConn).Close`. -/
structure Library where
  NewClient : String → List DialOption → Option ClientConn × Option Error
  NewExecutionServiceClient : Option ClientConn → ExecutionServiceClient
  Close : ClientConn → Option Error

/-! ## proxy/grpc: Config and Client -/

/-- Modelled from the spec: `Config` (declared in `config.go`, which is not
among the sources) carries the default call timeout and the maximum accepted
request size. -/
structure Config where
  DefaultTimeout : Duration
  MaxRequestSize : Nat
  deriving DecidableEq

/-- The struct `Client`: connection handle, service stub, configuration; each
may be nil. -/
structure Client where
  conn : Option ClientConn
  client : Option ExecutionServiceClient
  config : Option Config

/-- The constructor `NewClient()`. The function `DefaultConfig` is declared in
`config.go`, which is not among the sources; the pointer it returns is the
parameter (`none` for nil, `some cfg` for a pointer to `cfg`). -/
def NewClient (DefaultConfig : Option Config) : Client :=
  { conn := none, client := none, config := DefaultConfig }

/-- The method `SetConfig`. -/
def Client.SetConfig (c : Client) (config : Option Config) : Client :=
  match config with
  | some cfg => { c with config := some cfg }
  | none => c

/-- The method `Start`: the updated client and the returned error. -/
def Client.Start (lib : Library) (c : Client) (target : String)
    (opts : List DialOption) : Client × Option Error :=
  let r := lib.NewClient target opts
  let c1 : Client := { c with conn := r.1 }
  match r.2 with
  | some err => (c1, some err)
  | none => ({ c1 with client := some (lib.NewExecutionServiceClient c1.conn) }, none)

/-- What `Stop` did: the client afterwards, the handles it closed, in order,
and the returned error. -/
structure StopRun where
  client : Client
  closed : List ClientConn
  err : Option Error

/-- The method `Stop`. -/
def Client.Stop (lib : Library) (c : Client) : StopRun :=
  match c.conn with
  | some cc => { client := c, closed := [cc], err := lib.Close cc }
  | none => { client := c, closed := [], err := none }

/-- The method `InitChain`. Evaluating `c.config.DefaultTimeout` on a nil
config, calling a method of a nil stub, and reading a field of a nil response
each panic. -/
def Client.InitChain (c : Client) (genesisTime : Time) (initialHeight : Nat)
    (chainID : String) : Run (Hash × Nat × Option Error) :=
  match c.config with
  | none => { calls := [], outcome := .panicked }
  | some cfg =>
    let ctx := WithTimeout Background cfg.DefaultTimeout
    let req : InitChainRequest :=
      { GenesisTime := genesisTime.Unix, InitialHeight := initialHeight, ChainId := chainID }
    match c.client with
    | none => { calls := [], outcome := .panicked }
    | some stub =>
      match stub.InitChain ctx req with
      | (_, some err) =>
        { calls := [.initChain ctx req], outcome := .returned (Hash.zero, 0, some err) }
      | (none, none) => { calls := [.initChain ctx req], outcome := .panicked }
      | (some resp, none) =>
        let stateRoot := Hash.zero.copyFrom resp.StateRoot
        { calls := [.initChain ctx req], outcome := .returned (stateRoot, resp.MaxBytes, none) }

/-- The method `GetTxs`. The first result is `none` for a nil slice. -/
def Client.GetTxs (c : Client) : Run (Option (List Tx) × Option Error) :=
  match c.config with
  | none => { calls := [], outcome := .panicked }
  | some cfg =>
    let ctx := WithTimeout Background cfg.DefaultTimeout
    let req : GetTxsRequest := {}
    match c.client with
    | none => { calls := [], outcome := .panicked }
    | some stub =>
      match stub.GetTxs ctx req with
      | (_, some err) => { calls := [.getTxs ctx req], outcome := .returned (none, some err) }
      | (none, none) => { calls := [.getTxs ctx req], outcome := .panicked }
      | (some resp, none) =>
        let txs : List Tx := rangeAssign (make [] resp.Txs.length) resp.Txs
        { calls := [.getTxs ctx req], outcome := .returned (some txs, none) }

/-- The method `ExecuteTxs`. -/
def Client.ExecuteTxs (c : Client) (txs : List Tx) (blockHeight : Nat)
    (timestamp : Time) (prevStateRoot : Hash) : Run (Hash × Nat × Option Error) :=
  match c.config with
  | none => { calls := [], outcome := .panicked }
  | some cfg =>
    let ctx := WithTimeout Background cfg.DefaultTimeout
    let req : ExecuteTxsRequest :=
      { Txs := rangeAssign (make [] txs.length) txs,
        BlockHeight := blockHeight,
        Timestamp := timestamp.Unix,
        PrevStateRoot := prevStateRoot.slice }
    match c.client with
    | none => { calls := [], outcome := .panicked }
    | some stub =>
      match stub.ExecuteTxs ctx req with
      | (_, some err) =>
        { calls := [.executeTxs ctx req], outcome := .returned (Hash.zero, 0, some err) }
      | (none, none) => { calls := [.executeTxs ctx req], outcome := .panicked }
      | (some resp, none) =>
        let updatedStateRoot := Hash.zero.copyFrom resp.UpdatedStateRoot
        { calls := [.executeTxs ctx req],
          outcome := .returned (updatedStateRoot, resp.MaxBytes, none) }

/-- The method `SetFinal`. -/
def Client.SetFinal (c : Client) (blockHeight : Nat) : Run (Option Error) :=
  match c.config with
  | none => { calls := [], outcome := .panicked }
  | some cfg =>
    let ctx := WithTimeout Background cfg.DefaultTimeout
    let req : SetFinalRequest := { BlockHeight := blockHeight }
    match c.client with
    | none => { calls := [], outcome := .panicked }
    | some stub =>
      { calls := [.setFinal ctx req], outcome := .returned (stub.SetFinal ctx req).2 }

/-! ## Concrete values used to exercise the theorems -/

/-- The configuration of the test suite: five seconds, one mebibyte. -/
def testConfig : Config :=
  { DefaultTimeout := 5 * Second, MaxRequestSize := 1024 * 1024 }

/-- A service stub that answers every request of a method with one fixed
result. -/
def fixedStub (ic : Option InitChainResponse × Option Error)
    (gt : Option GetTxsResponse × Option Error)
    (et : Option ExecuteTxsResponse × Option Error)
    (sf : Option SetFinalResponse × Option Error) : ExecutionServiceClient :=
  { InitChain := fun _ _ => ic, GetTxs := fun _ _ => gt,
    ExecuteTxs := fun _ _ => et, SetFinal := fun _ _ => sf }

/-- The state root `{1, 2, 3, 0, ..., 0}` of the test suite. -/
def root123 : Hash := Hash.zero.copyFrom [1, 2, 3]

/-- The state root `{4, 5, 6, 0, ..., 0}` of the test suite. -/
def root456 : Hash := Hash.zero.copyFrom [4, 5, 6]

/-- The transactions `tx1`, `tx2` of the test suite, as bytes. -/
def testTxs : List Tx := [[116, 120, 49], [116, 120, 50]]

/-- A wire buffer of 40 bytes, longer than a Hash. -/
def longBuffer : List Byte := List.replicate 40 7

/-- An instant before the epoch (one day before 1970, internal seconds) with a
sub-second part. -/
def beforeEpoch : Time := { sec := 62135510400, nsec := 123456789 }

/-- A client whose stub and configuration are present. -/
def clientWith (stub : ExecutionServiceClient) (cfg : Config) : Client :=
  { conn := some { id := 1 }, client := some stub, config := some cfg }

/-- A library whose dial always succeeds, handing out the connection numbered
by the count of dial options, whose stubs are all `stub`, and whose `Close`
answers `closeErr`. -/
def testLibrary (stub : ExecutionServiceClient) (closeErr : Option Error) : Library :=
  { NewClient := fun _ opts => (some { id := opts.length }, none),
    NewExecutionServiceClient := fun _ => stub,
    Close := fun _ => closeErr }

/-- A stub all of whose methods fail with the error `e`. -/
def failingStub (e : Error) : ExecutionServiceClient :=
  fixedStub (none, some e) (none, some e) (none, some e) (none, some e)

/-- The clients a caller can obtain through the exported API: `NewClient()`,
with `DefaultConfig()` returning a pointer that is not nil, then any sequence
of `SetConfig`, `Start` and `Stop` calls, against any behaviour of the
library. -/
inductive Built : Client → Prop where
  | newClient (DefaultConfig : Config) : Built (NewClient (some DefaultConfig))
  | setConfig {c : Client} (config : Option Config) :
      Built c → Built (c.SetConfig config)
  | start {c : Client} (lib : Library) (target : String) (opts : List DialOption) :
      Built c → Built (c.Start lib target opts).1
  | stop {c : Client} (lib : Library) : Built c → Built (c.Stop lib).client

/-- The wording of the specification for a Hash decoded from a wire buffer `b`:
exactly 32 bytes, byte `i` is `b[i]` for `i < min(len(b), 32)`, and zero for
every other `i < 32`. -/
def Hash.ZeroPaddedFrom (h : Hash) (b : List Byte) : Prop :=
  h.slice.length = 32 ∧
  (∀ i, i < min b.length 32 → h.slice[i]? = b[i]?) ∧
  (∀ i, min b.length 32 ≤ i → i < 32 → h.slice[i]? = some 0)

/-! ## Builtins: lemmas -/

theorem copy_length {α : Type} (dst src : List α) :
    (copy dst src).length = dst.length := by
  induction dst generalizing src with
  | nil => rfl
  | cons d ds ih =>
    cases src with
    | nil => rfl
    | cons s ss => simp [copy, ih]

theorem copy_getElem?_lt {α : Type} (dst src : List α) (i : Nat)
    (hd : i < dst.length) (hs : i < src.length) :
    (copy dst src)[i]? = src[i]? := by
  induction dst generalizing src i with
  | nil => simp at hd
  | cons d ds ih =>
    cases src with
    | nil => simp at hs
    | cons s ss =>
      cases i with
      | zero => simp [copy]
      | succ j =>
        simp only [copy, List.getElem?_cons_succ]
        exact ih ss j (by simpa using hd) (by simpa using hs)

theorem copy_getElem?_ge {α : Type} (dst src : List α) (i : Nat)
    (hs : src.length ≤ i) :
    (copy dst src)[i]? = dst[i]? := by
  induction dst generalizing src i with
  | nil => rfl
  | cons d ds ih =>
    cases src with
    | nil => rfl
    | cons s ss =>
      cases i with
      | zero => simp at hs
      | succ j =>
        simp only [copy, List.getElem?_cons_succ]
        exact ih ss j (by simpa using hs)

theorem copy_eq_src {α : Type} (dst src : List α) (h : dst.length = src.length) :
    copy dst src = src := by
  induction dst generalizing src with
  | nil =>
    cases src with
    | nil => rfl
    | cons s ss => simp at h
  | cons d ds ih =>
    cases src with
    | nil => simp at h
    | cons s ss =>
      simp only [copy, List.cons.injEq, true_and]
      exact ih ss (by simpa using h)

theorem rangeAssignFrom_append {α : Type} (src pre rest : List α)
    (h : rest.length = src.length) :
    rangeAssignFrom pre.length (pre ++ rest) src = pre ++ src := by
  induction src generalizing pre rest with
  | nil =>
    cases rest with
    | nil => rfl
    | cons r rs => simp at h
  | cons x xs ih =>
    cases rest with
    | nil => simp at h
    | cons r rs =>
      have hset : (pre ++ r :: rs).set pre.length x = (pre ++ [x]) ++ rs := by
        simp [List.set_append]
      have hlen : (pre ++ [x]).length = pre.length + 1 := by simp
      simp only [rangeAssignFrom, hset]
      rw [← hlen, ih (pre ++ [x]) rs (by simpa using h)]
      simp

theorem rangeAssign_make {α : Type} (zero : α) (src : List α) :
    rangeAssign (make zero src.length) src = src := by
  have h := rangeAssignFrom_append src [] (make zero src.length) (by simp [make])
  simpa [rangeAssign] using h

theorem zero_getElem? (i : Nat) (h : i < 32) : Hash.zero.val[i]? = some 0 := by
  show (List.replicate 32 (0 : Byte))[i]? = some 0
  rw [List.getElem?_replicate, if_pos h]

theorem copyFrom_zeroPadded (b : List Byte) :
    (Hash.zero.copyFrom b).ZeroPaddedFrom b := by
  refine ⟨(Hash.zero.copyFrom b).property, ?_, ?_⟩
  · intro i hi
    have h32 : i < Hash.zero.val.length := by
      rw [Hash.zero.property]; exact lt_of_lt_of_le hi (min_le_right _ _)
    exact copy_getElem?_lt Hash.zero.val b i h32 (lt_of_lt_of_le hi (min_le_left _ _))
  · intro i hlo hhi
    have hb : b.length ≤ i := by
      rcases Nat.le_total b.length 32 with hle | hle
      · rwa [min_eq_left hle] at hlo
      · rw [min_eq_right hle] at hlo; omega
    show (copy Hash.zero.val b)[i]? = some 0
    rw [copy_getElem?_ge Hash.zero.val b i hb]
    exact zero_getElem? i hhi

theorem copyFrom_slice (h : Hash) : Hash.zero.copyFrom h.slice = h := by
  apply Subtype.ext
  show copy Hash.zero.val h.val = h.val
  exact copy_eq_src Hash.zero.val h.val (by rw [Hash.zero.property, h.property])

/-! ## The value codec inside the client operations -/

/-- C1: whatever byte buffer a successful response carries as its state root
(empty, short, or longer than 32 bytes), `InitChain` and `ExecuteTxs` return
normally, without error, a Hash of exactly 32 bytes whose byte `i` is the
buffer byte `i` for `i < min(len, 32)` and zero for every other `i < 32`. -/
theorem C1_hash_decode_total (c : Client) (cfg : Config) (stub : ExecutionServiceClient)
    (hcfg : c.config = some cfg) (hstub : c.client = some stub) :
    (∀ (genesisTime : Time) (initialHeight : Nat) (chainID : String)
        (b : List Byte) (m : Nat),
      stub.InitChain (WithTimeout Background cfg.DefaultTimeout)
          { GenesisTime := genesisTime.Unix, InitialHeight := initialHeight,
            ChainId := chainID }
        = (some { StateRoot := b, MaxBytes := m }, none) →
      ∃ h : Hash,
        (c.InitChain genesisTime initialHeight chainID).outcome = .returned (h, m, none)
          ∧ h.ZeroPaddedFrom b) ∧
    (∀ (txs : List Tx) (blockHeight : Nat) (timestamp : Time) (prevStateRoot : Hash)
        (b : List Byte) (m : Nat),
      stub.ExecuteTxs (WithTimeout Background cfg.DefaultTimeout)
          { Txs := rangeAssign (make [] txs.length) txs, BlockHeight := blockHeight,
            Timestamp := timestamp.Unix, PrevStateRoot := prevStateRoot.slice }
        = (some { UpdatedStateRoot := b, MaxBytes := m }, none) →
      ∃ h : Hash,
        (c.ExecuteTxs txs blockHeight timestamp prevStateRoot).outcome
            = .returned (h, m, none)
          ∧ h.ZeroPaddedFrom b) := by
  constructor
  · intro genesisTime initialHeight chainID b m hresp
    refine ⟨Hash.zero.copyFrom b, ?_, copyFrom_zeroPadded b⟩
    simp only [Client.InitChain, hcfg, hstub, hresp]
  · intro txs blockHeight timestamp prevStateRoot b m hresp
    refine ⟨Hash.zero.copyFrom b, ?_, copyFrom_zeroPadded b⟩
    simp only [Client.ExecuteTxs, hcfg, hstub, hresp]

/-- Witness of C1: a 40-byte buffer through `InitChain` and an empty buffer
through `ExecuteTxs`. -/
theorem C1_hash_decode_total_witness :
    (∃ h : Hash,
      (Client.InitChain
          (clientWith (fixedStub (some { StateRoot := longBuffer, MaxBytes := 9 }, none)
            (none, none) (none, none) (none, none)) testConfig)
          beforeEpoch 1 "test-chain").outcome = .returned (h, 9, none)
        ∧ h.ZeroPaddedFrom longBuffer) ∧
    (∃ h : Hash,
      (Client.ExecuteTxs
          (clientWith (fixedStub (none, none) (none, none)
            (some { UpdatedStateRoot := [], MaxBytes := 3 }, none) (none, none)) testConfig)
          testTxs 1 beforeEpoch root123).outcome = .returned (h, 3, none)
        ∧ h.ZeroPaddedFrom []) :=
  ⟨(C1_hash_decode_total
      (clientWith (fixedStub (some { StateRoot := longBuffer, MaxBytes := 9 }, none)
        (none, none) (none, none) (none, none)) testConfig)
      testConfig _ rfl rfl).1 beforeEpoch 1 "test-chain" longBuffer 9 rfl,
   (C1_hash_decode_total
      (clientWith (fixedStub (none, none) (none, none)
        (some { UpdatedStateRoot := [], MaxBytes := 3 }, none) (none, none)) testConfig)
      testConfig _ rfl rfl).2 testTxs 1 beforeEpoch root123 [] 3 rfl⟩

/-- C2: when the response is a success carrying the 32 bytes `h[:]` of a Hash
`h` and `MaxBytes = m`, `InitChain` and `ExecuteTxs` each return exactly
`(h, m, nil)`: decoding the encoding of `h` gives `h`, and `m` is passed on
unchanged. -/
theorem C2_hash_round_trip (c : Client) (cfg : Config) (stub : ExecutionServiceClient)
    (hcfg : c.config = some cfg) (hstub : c.client = some stub) (h : Hash) (m : Nat) :
    (∀ (genesisTime : Time) (initialHeight : Nat) (chainID : String),
      stub.InitChain (WithTimeout Background cfg.DefaultTimeout)
          { GenesisTime := genesisTime.Unix, InitialHeight := initialHeight,
            ChainId := chainID }
        = (some { StateRoot := h.slice, MaxBytes := m }, none) →
      (c.InitChain genesisTime initialHeight chainID).outcome = .returned (h, m, none)) ∧
    (∀ (txs : List Tx) (blockHeight : Nat) (timestamp : Time) (prevStateRoot : Hash),
      stub.ExecuteTxs (WithTimeout Background cfg.DefaultTimeout)
          { Txs := rangeAssign (make [] txs.length) txs, BlockHeight := blockHeight,
            Timestamp := timestamp.Unix, PrevStateRoot := prevStateRoot.slice }
        = (some { UpdatedStateRoot := h.slice, MaxBytes := m }, none) →
      (c.ExecuteTxs txs blockHeight timestamp prevStateRoot).outcome
        = .returned (h, m, none)) := by
  constructor
  · intro genesisTime initialHeight chainID hresp
    simp only [Client.InitChain, hcfg, hstub, hresp, copyFrom_slice]
  · intro txs blockHeight timestamp prevStateRoot hresp
    simp only [Client.ExecuteTxs, hcfg, hstub, hresp, copyFrom_slice]

/-- Witness of C2: the scenarios of the test suite, root `{1,2,3,0,...}` from
`InitChain` and root `{4,5,6,0,...}` from `ExecuteTxs`, both with
`maxBytes = 1000000`. -/
theorem C2_hash_round_trip_witness :
    (Client.InitChain
        (clientWith (fixedStub (some { StateRoot := root123.slice, MaxBytes := 1000000 }, none)
          (none, none) (none, none) (none, none)) testConfig)
        beforeEpoch 1 "test-chain").outcome = .returned (root123, 1000000, none) ∧
    (Client.ExecuteTxs
        (clientWith (fixedStub (none, none) (none, none)
          (some { UpdatedStateRoot := root456.slice, MaxBytes := 1000000 }, none)
          (none, none)) testConfig)
        testTxs 1 beforeEpoch root123).outcome = .returned (root456, 1000000, none) :=
  ⟨(C2_hash_round_trip
      (clientWith (fixedStub (some { StateRoot := root123.slice, MaxBytes := 1000000 }, none)
        (none, none) (none, none) (none, none)) testConfig)
      testConfig _ rfl rfl root123 1000000).1 beforeEpoch 1 "test-chain" rfl,
   (C2_hash_round_trip
      (clientWith (fixedStub (none, none) (none, none)
        (some { UpdatedStateRoot := root456.slice, MaxBytes := 1000000 }, none)
        (none, none)) testConfig)
      testConfig _ rfl rfl root456 1000000).2 testTxs 1 beforeEpoch root123 rfl⟩

/-- C3: the wire list `ExecuteTxs` sends equals the transaction sequence it was
given (same length, same element at every index), the sequence `GetTxs`
returns on success equals the wire list of the response (same length, same
element at every index), hence a response carrying the encoding of `ts`
decodes to `ts`; an empty wire list gives an empty, non-nil sequence and no
error. -/
theorem C3_tx_round_trip (c : Client) (cfg : Config) (stub : ExecutionServiceClient)
    (hcfg : c.config = some cfg) (hstub : c.client = some stub) :
    (∀ (ts : List Tx) (blockHeight : Nat) (timestamp : Time) (prevStateRoot : Hash),
      ∃ req : ExecuteTxsRequest,
        (c.ExecuteTxs ts blockHeight timestamp prevStateRoot).calls
            = [.executeTxs (WithTimeout Background cfg.DefaultTimeout) req]
          ∧ req.Txs = ts ∧ req.Txs.length = ts.length ∧ ∀ i : Nat, req.Txs[i]? = ts[i]?) ∧
    (∀ (w : List (List Byte)),
      stub.GetTxs (WithTimeout Background cfg.DefaultTimeout) {} = (some { Txs := w }, none) →
      ∃ out : List Tx,
        c.GetTxs.outcome = .returned (some out, none)
          ∧ out = w ∧ out.length = w.length ∧ ∀ i : Nat, out[i]? = w[i]?) ∧
    (∀ (ts : List Tx),
      stub.GetTxs (WithTimeout Background cfg.DefaultTimeout) {}
        = (some { Txs := rangeAssign (make [] ts.length) ts }, none) →
      c.GetTxs.outcome = .returned (some ts, none)) ∧
    (stub.GetTxs (WithTimeout Background cfg.DefaultTimeout) {} = (some { Txs := [] }, none) →
      c.GetTxs.outcome = .returned (some [], none)) := by
  refine ⟨?_, ?_, ?_, ?_⟩
  · intro ts blockHeight timestamp prevStateRoot
    refine ⟨{ Txs := rangeAssign (make [] ts.length) ts, BlockHeight := blockHeight,
              Timestamp := timestamp.Unix, PrevStateRoot := prevStateRoot.slice },
            ?_, rangeAssign_make [] ts, ?_, ?_⟩
    · simp only [Client.ExecuteTxs, hcfg, hstub]
      split <;> rfl
    · simp only [rangeAssign_make]
    · intro i
      simp only [rangeAssign_make]
  · intro w hresp
    refine ⟨w, ?_, rfl, rfl, fun _ => rfl⟩
    simp only [Client.GetTxs, hcfg, hstub, hresp, rangeAssign_make]
  · intro ts hresp
    simp only [Client.GetTxs, hcfg, hstub, hresp, rangeAssign_make]
  · intro hresp
    simp only [Client.GetTxs, hcfg, hstub, hresp]
    rfl

/-- Witness of C3: the two transactions of the test suite, echoed by the stub,
and the empty mempool. -/
theorem C3_tx_round_trip_witness :
    (Client.GetTxs (clientWith (fixedStub (none, none)
        (some { Txs := rangeAssign (make [] testTxs.length) testTxs }, none)
        (none, none) (none, none)) testConfig)).outcome
      = .returned (some testTxs, none) ∧
    (Client.GetTxs (clientWith (fixedStub (none, none) (some { Txs := [] }, none)
        (none, none) (none, none)) testConfig)).outcome
      = .returned (some [], none) :=
  ⟨(C3_tx_round_trip
      (clientWith (fixedStub (none, none)
        (some { Txs := rangeAssign (make [] testTxs.length) testTxs }, none)
        (none, none) (none, none)) testConfig)
      testConfig _ rfl rfl).2.2.1 testTxs rfl,
   (C3_tx_round_trip
      (clientWith (fixedStub (none, none) (some { Txs := [] }, none)
        (none, none) (none, none)) testConfig)
      testConfig _ rfl rfl).2.2.2 rfl⟩

theorem wrapInt64_round_trip (s : Int) (hlo : -(2 : Int) ^ 63 ≤ s) (hhi : s < (2 : Int) ^ 63) :
    wrapInt64 (wrapInt64 (s + internalToUnix) + unixToInternal) = s := by
  unfold wrapInt64 internalToUnix unixToInternal
  norm_num at hlo hhi ⊢
  omega

theorem unix_round_trip (t : Time) (ht : t.wf) :
    time.Unix t.Unix 0 = { t with nsec := 0 } := by
  obtain ⟨hlo, hhi, _, _⟩ := ht
  have hw := wrapInt64_round_trip t.sec hlo hhi
  simp [time.Unix, time.unixTime, Time.Unix, hw]

theorem unix_round_trip_wf (t : Time) (ht : t.wf) :
    (time.Unix t.Unix 0).wf := by
  rw [unix_round_trip t ht]
  obtain ⟨hlo, hhi, _, _⟩ := ht
  exact ⟨hlo, hhi, le_refl _, by norm_num⟩

/-- C4: the seconds count the client puts on the wire (`t.Unix()`, in the
`GenesisTime` field of `InitChain` and the `Timestamp` field of `ExecuteTxs`),
decoded with `time.Unix(sec, 0)`, is `t` with its sub-second part set to zero,
for every instant a `time.Time` holds, before or after the epoch; encoding and
decoding that result once more gives the same value. -/
theorem C4_timestamp_truncation (c : Client) (cfg : Config) (stub : ExecutionServiceClient)
    (hcfg : c.config = some cfg) (hstub : c.client = some stub)
    (t : Time) (ht : t.wf) :
    (∀ (initialHeight : Nat) (chainID : String),
      ∃ req : InitChainRequest,
        (c.InitChain t initialHeight chainID).calls
            = [.initChain (WithTimeout Background cfg.DefaultTimeout) req]
          ∧ req.GenesisTime = t.Unix
          ∧ time.Unix req.GenesisTime 0 = { t with nsec := 0 }) ∧
    (∀ (txs : List Tx) (blockHeight : Nat) (prevStateRoot : Hash),
      ∃ req : ExecuteTxsRequest,
        (c.ExecuteTxs txs blockHeight t prevStateRoot).calls
            = [.executeTxs (WithTimeout Background cfg.DefaultTimeout) req]
          ∧ req.Timestamp = t.Unix
          ∧ time.Unix req.Timestamp 0 = { t with nsec := 0 }) ∧
    time.Unix (time.Unix t.Unix 0).Unix 0 = time.Unix t.Unix 0 := by
  refine ⟨?_, ?_, ?_⟩
  · intro initialHeight chainID
    refine ⟨{ GenesisTime := t.Unix, InitialHeight := initialHeight, ChainId := chainID },
            ?_, rfl, unix_round_trip t ht⟩
    simp only [Client.InitChain, hcfg, hstub]
    split <;> rfl
  · intro txs blockHeight prevStateRoot
    refine ⟨{ Txs := rangeAssign (make [] txs.length) txs, BlockHeight := blockHeight,
              Timestamp := t.Unix, PrevStateRoot := prevStateRoot.slice },
            ?_, rfl, unix_round_trip t ht⟩
    simp only [Client.ExecuteTxs, hcfg, hstub]
    split <;> rfl
  · rw [unix_round_trip _ (unix_round_trip_wf t ht), unix_round_trip t ht]

/-- Witness of C4: an instant one day before the epoch, 123456789 ns into its
second; its wire form is -86400. -/
theorem C4_timestamp_truncation_witness :
    beforeEpoch.wf ∧ beforeEpoch.Unix = -86400 ∧
    time.Unix beforeEpoch.Unix 0 = { sec := 62135510400, nsec := 0 } ∧
    time.Unix (time.Unix beforeEpoch.Unix 0).Unix 0 = time.Unix beforeEpoch.Unix 0 :=
  ⟨by decide, by decide, by decide,
   (C4_timestamp_truncation (clientWith (failingStub "down") testConfig) testConfig
      (failingStub "down") rfl rfl beforeEpoch (by decide)).2.2⟩

/-! ## Timeouts, wire requests and errors -/

/-- C6, as stated, fails: a caller holding a one-second deadline cannot pass
it on, and the request of `InitChain` goes out with the five-second
`DefaultTimeout`, not with `min(1s, 5s)`. -/
theorem C6_counterexample :
    (Client.InitChain (clientWith (failingStub "down") testConfig)
        beforeEpoch 1 "test-chain").calls.map (fun k => k.ctx.deadline)
      = [some (5 * Second)] ∧
    (Client.InitChain (clientWith (failingStub "down") testConfig)
        beforeEpoch 1 "test-chain").calls.map (fun k => k.ctx.deadline)
      ≠ [some (min (1 * Second) testConfig.DefaultTimeout)] := by
  constructor <;> decide

/-- C6, amended: the four operations take no caller context; each hands to its
single wire request the context `WithTimeout(Background(), DefaultTimeout)`,
whose timeout is exactly `config.DefaultTimeout`. -/
theorem C6_wire_timeout_is_default (c : Client) (cfg : Config)
    (stub : ExecutionServiceClient)
    (hcfg : c.config = some cfg) (hstub : c.client = some stub) :
    (∀ (genesisTime : Time) (initialHeight : Nat) (chainID : String),
      (c.InitChain genesisTime initialHeight chainID).calls.map WireCall.ctx
        = [{ deadline := some cfg.DefaultTimeout }]) ∧
    c.GetTxs.calls.map WireCall.ctx = [{ deadline := some cfg.DefaultTimeout }] ∧
    (∀ (txs : List Tx) (blockHeight : Nat) (timestamp : Time) (prevStateRoot : Hash),
      (c.ExecuteTxs txs blockHeight timestamp prevStateRoot).calls.map WireCall.ctx
        = [{ deadline := some cfg.DefaultTimeout }]) ∧
    (∀ (blockHeight : Nat),
      (c.SetFinal blockHeight).calls.map WireCall.ctx
        = [{ deadline := some cfg.DefaultTimeout }]) := by
  refine ⟨?_, ?_, ?_, ?_⟩
  · intro genesisTime initialHeight chainID
    simp only [Client.InitChain, hcfg, hstub]
    split <;> rfl
  · simp only [Client.GetTxs, hcfg, hstub]
    split <;> rfl
  · intro txs blockHeight timestamp prevStateRoot
    simp only [Client.ExecuteTxs, hcfg, hstub]
    split <;> rfl
  · intro blockHeight
    simp only [Client.SetFinal, hcfg, hstub]
    rfl

/-- Witness of C6 amended: the configuration of the test suite. -/
theorem C6_wire_timeout_is_default_witness :
    (Client.SetFinal (clientWith (failingStub "down") testConfig) 1).calls.map WireCall.ctx
      = [{ deadline := some (5 * Second) }] :=
  (C6_wire_timeout_is_default (clientWith (failingStub "down") testConfig) testConfig
    (failingStub "down") rfl rfl).2.2.2 1

theorem Built.config_ne_none {c : Client} (hb : Built c) : ∃ cfg, c.config = some cfg := by
  induction hb with
  | newClient d => exact ⟨d, rfl⟩
  | setConfig config _ ih =>
    cases config with
    | none => exact ih
    | some cfg => exact ⟨cfg, rfl⟩
  | start lib target opts _ ih =>
    obtain ⟨cfg, hc⟩ := ih
    refine ⟨cfg, ?_⟩
    simp only [Client.Start]
    cases (lib.NewClient target opts).2 <;> exact hc
  | stop lib _ ih =>
    obtain ⟨cfg, hc⟩ := ih
    refine ⟨cfg, ?_⟩
    unfold Client.Stop
    split <;> exact hc

/-- C7: on every client obtained through the API whose service stub is present,
each of `InitChain`, `GetTxs`, `ExecuteTxs` and `SetFinal` issues exactly one
wire request, whatever the arguments and whatever the answer; when that
request answers with the error `e` the operation returns `e` itself, with the
all-zero Hash and 0 (`InitChain`, `ExecuteTxs`) or the nil slice (`GetTxs`). -/
theorem C7_one_request_error_unchanged (c : Client) (stub : ExecutionServiceClient)
    (hb : Built c) (hstub : c.client = some stub) :
    (∀ (genesisTime : Time) (initialHeight : Nat) (chainID : String),
      ∃ ctx req, (c.InitChain genesisTime initialHeight chainID).calls = [.initChain ctx req] ∧
        ∀ r e, stub.InitChain ctx req = (r, some e) →
          (c.InitChain genesisTime initialHeight chainID).outcome
            = .returned (Hash.zero, 0, some e)) ∧
    (∃ ctx req, c.GetTxs.calls = [.getTxs ctx req] ∧
        ∀ r e, stub.GetTxs ctx req = (r, some e) →
          c.GetTxs.outcome = .returned (none, some e)) ∧
    (∀ (txs : List Tx) (blockHeight : Nat) (timestamp : Time) (prevStateRoot : Hash),
      ∃ ctx req,
        (c.ExecuteTxs txs blockHeight timestamp prevStateRoot).calls = [.executeTxs ctx req] ∧
        ∀ r e, stub.ExecuteTxs ctx req = (r, some e) →
          (c.ExecuteTxs txs blockHeight timestamp prevStateRoot).outcome
            = .returned (Hash.zero, 0, some e)) ∧
    (∀ (blockHeight : Nat),
      ∃ ctx req, (c.SetFinal blockHeight).calls = [.setFinal ctx req] ∧
        ∀ r e, stub.SetFinal ctx req = (r, some e) →
          (c.SetFinal blockHeight).outcome = .returned (some e)) := by
  obtain ⟨cfg, hcfg⟩ := hb.config_ne_none
  refine ⟨?_, ?_, ?_, ?_⟩
  · intro genesisTime initialHeight chainID
    refine ⟨WithTimeout Background cfg.DefaultTimeout,
      { GenesisTime := genesisTime.Unix, InitialHeight := initialHeight, ChainId := chainID },
      ?_, ?_⟩
    · simp only [Client.InitChain, hcfg, hstub]
      split <;> rfl
    · intro r e hresp
      simp only [Client.InitChain, hcfg, hstub, hresp]
  · refine ⟨WithTimeout Background cfg.DefaultTimeout, {}, ?_, ?_⟩
    · simp only [Client.GetTxs, hcfg, hstub]
      split <;> rfl
    · intro r e hresp
      simp only [Client.GetTxs, hcfg, hstub, hresp]
  · intro txs blockHeight timestamp prevStateRoot
    refine ⟨WithTimeout Background cfg.DefaultTimeout,
      { Txs := rangeAssign (make [] txs.length) txs, BlockHeight := blockHeight,
        Timestamp := timestamp.Unix, PrevStateRoot := prevStateRoot.slice },
      ?_, ?_⟩
    · simp only [Client.ExecuteTxs, hcfg, hstub]
      split <;> rfl
    · intro r e hresp
      simp only [Client.ExecuteTxs, hcfg, hstub, hresp]
  · intro blockHeight
    refine ⟨WithTimeout Background cfg.DefaultTimeout, { BlockHeight := blockHeight }, ?_, ?_⟩
    · simp only [Client.SetFinal, hcfg, hstub]
    · intro r e hresp
      simp only [Client.SetFinal, hcfg, hstub, hresp]

/-- Witness of C7: a client from `NewClient`, started against a stub that
always fails with `"down"`. -/
theorem C7_one_request_error_unchanged_witness :
    (Client.InitChain
        (Client.Start (testLibrary (failingStub "down") none)
          (NewClient (some testConfig)) "127.0.0.1:40041" []).1
        beforeEpoch 1 "test-chain").outcome
      = .returned (Hash.zero, 0, some "down") := by
  obtain ⟨ctx, req, _, herr⟩ :=
    (C7_one_request_error_unchanged
      (Client.Start (testLibrary (failingStub "down") none)
        (NewClient (some testConfig)) "127.0.0.1:40041" []).1
      (failingStub "down")
      (Built.start _ _ _ (Built.newClient testConfig)) rfl).1 beforeEpoch 1 "test-chain"
  exact herr none "down" rfl

/-! ## Lifecycle: use before Start, Start, Stop, SetConfig -/

/-- C5, as stated, fails: on the client returned by `NewClient`, `InitChain`
panics on the nil service stub instead of returning an error value. -/
theorem C5_counterexample :
    (Client.InitChain (NewClient (some testConfig)) beforeEpoch 1 "test-chain").outcome
      = .panicked ∧
    ¬ ∃ v, (Client.InitChain (NewClient (some testConfig)) beforeEpoch 1 "test-chain").outcome
      = .returned v := by
  refine ⟨rfl, ?_⟩
  rintro ⟨v, hv⟩
  cases hv

/-- C5, amended: on a client as returned by `NewClient`, on which `Start` has
never been called, each of `InitChain`, `GetTxs`, `ExecuteTxs` and `SetFinal`,
for every argument, issues no wire request and panics on the nil service
stub; nothing is returned to the caller. -/
theorem C5_unstarted_client_panics (DefaultConfig : Option Config) :
    (∀ (genesisTime : Time) (initialHeight : Nat) (chainID : String),
      (Client.InitChain (NewClient DefaultConfig) genesisTime initialHeight chainID).calls = []
        ∧ (Client.InitChain (NewClient DefaultConfig) genesisTime initialHeight chainID).outcome
            = .panicked) ∧
    ((Client.GetTxs (NewClient DefaultConfig)).calls = []
        ∧ (Client.GetTxs (NewClient DefaultConfig)).outcome = .panicked) ∧
    (∀ (txs : List Tx) (blockHeight : Nat) (timestamp : Time) (prevStateRoot : Hash),
      (Client.ExecuteTxs (NewClient DefaultConfig) txs blockHeight timestamp
          prevStateRoot).calls = []
        ∧ (Client.ExecuteTxs (NewClient DefaultConfig) txs blockHeight timestamp
          prevStateRoot).outcome = .panicked) ∧
    (∀ (blockHeight : Nat),
      (Client.SetFinal (NewClient DefaultConfig) blockHeight).calls = []
        ∧ (Client.SetFinal (NewClient DefaultConfig) blockHeight).outcome = .panicked) :=
  by
  cases DefaultConfig with
  | none => exact ⟨fun _ _ _ => ⟨rfl, rfl⟩, ⟨rfl, rfl⟩, fun _ _ _ _ => ⟨rfl, rfl⟩,
      fun _ => ⟨rfl, rfl⟩⟩
  | some cfg => exact ⟨fun _ _ _ => ⟨rfl, rfl⟩, ⟨rfl, rfl⟩, fun _ _ _ _ => ⟨rfl, rfl⟩,
      fun _ => ⟨rfl, rfl⟩⟩

/-- C8, as stated, fails: a client from `NewClient` is started with one dial
option (the transport credentials) and gets handle 1; a second `Start`, with
two dial options, returns no error and puts handle 2 in place of handle 1. -/
theorem C8_counterexample :
    (Client.Start (testLibrary (failingStub "down") none)
        (NewClient (some testConfig)) "first:1" [{ id := 1 }]).2 = none ∧
    (Client.Start (testLibrary (failingStub "down") none)
        (NewClient (some testConfig)) "first:1" [{ id := 1 }]).1.conn = some { id := 1 } ∧
    (Client.Start (testLibrary (failingStub "down") none)
        (Client.Start (testLibrary (failingStub "down") none)
          (NewClient (some testConfig)) "first:1" [{ id := 1 }]).1
        "second:2" [{ id := 1 }, { id := 2 }]).2 = none ∧
    (Client.Start (testLibrary (failingStub "down") none)
        (Client.Start (testLibrary (failingStub "down") none)
          (NewClient (some testConfig)) "first:1" [{ id := 1 }]).1
        "second:2" [{ id := 1 }, { id := 2 }]).1.conn = some { id := 2 } ∧
    (Client.Start (testLibrary (failingStub "down") none)
        (Client.Start (testLibrary (failingStub "down") none)
          (NewClient (some testConfig)) "first:1" [{ id := 1 }]).1
        "second:2" [{ id := 1 }, { id := 2 }]).1.conn
      ≠ (Client.Start (testLibrary (failingStub "down") none)
        (NewClient (some testConfig)) "first:1" [{ id := 1 }]).1.conn := by
  refine ⟨rfl, rfl, rfl, rfl, ?_⟩
  decide

/-- C8, amended: on every client, one that already holds a connection handle
included, `Start` returns an error exactly when the new dial fails, and then
returns the error of the dial; when the dial succeeds it returns no error and
replaces the connection handle and the service stub by the new ones, leaving
the configuration as it was. -/
theorem C8_restart_replaces_handle (lib : Library) (c : Client)
    (target : String) (opts : List DialOption) :
    (∀ conn, lib.NewClient target opts = (conn, none) →
      (c.Start lib target opts).2 = none ∧
      (c.Start lib target opts).1.conn = conn ∧
      (c.Start lib target opts).1.client = some (lib.NewExecutionServiceClient conn) ∧
      (c.Start lib target opts).1.config = c.config) ∧
    (∀ conn e, lib.NewClient target opts = (conn, some e) →
      (c.Start lib target opts).2 = some e) := by
  constructor
  · intro conn hdial
    simp only [Client.Start, hdial, and_self]
  · intro conn e hdial
    simp only [Client.Start, hdial]

/-- Witness of C8 amended: a client holding handle 1 is started again with two
dial options; the dial succeeds, `Start` returns no error and the client holds
handle 2 instead. -/
theorem C8_restart_replaces_handle_witness :
    (clientWith (failingStub "old") testConfig).conn = some { id := 1 } ∧
    (Client.Start (testLibrary (failingStub "down") none)
        (clientWith (failingStub "old") testConfig) "second:2"
        [{ id := 1 }, { id := 2 }]).2 = none ∧
    (Client.Start (testLibrary (failingStub "down") none)
        (clientWith (failingStub "old") testConfig) "second:2"
        [{ id := 1 }, { id := 2 }]).1.conn = some { id := 2 } ∧
    (some { id := 2 } : Option ClientConn) ≠ some { id := 1 } :=
  have h := (C8_restart_replaces_handle (testLibrary (failingStub "down") none)
    (clientWith (failingStub "old") testConfig) "second:2" [{ id := 1 }, { id := 2 }]).1
    (some { id := 2 }) rfl
  ⟨rfl, h.1, h.2.1, by decide⟩

/-- C9: `Stop` on a client without connection handle returns no error, closes
nothing and leaves the client, all fields included, as it was; on a client
with a handle it closes exactly that handle and returns what `Close` returned. -/
theorem C9_stop (lib : Library) (c : Client) :
    (c.conn = none →
      (c.Stop lib).err = none ∧ (c.Stop lib).closed = [] ∧ (c.Stop lib).client = c) ∧
    (∀ handle, c.conn = some handle →
      (c.Stop lib).err = lib.Close handle ∧ (c.Stop lib).closed = [handle]) := by
  constructor
  · intro hnone
    simp only [Client.Stop, hnone, and_self]
  · intro handle hsome
    simp only [Client.Stop, hsome, and_self]

/-- Witness of C9: a client fresh from `NewClient`, and a started client whose
`Close` fails, against a library whose `Close` always fails. -/
theorem C9_stop_witness :
    ((Client.Stop (testLibrary (failingStub "down") (some "close failed"))
        (NewClient (some testConfig))).err = none ∧
      (Client.Stop (testLibrary (failingStub "down") (some "close failed"))
        (NewClient (some testConfig))).closed = [] ∧
      (Client.Stop (testLibrary (failingStub "down") (some "close failed"))
        (NewClient (some testConfig))).client = NewClient (some testConfig)) ∧
    ((Client.Stop (testLibrary (failingStub "down") (some "close failed"))
        (clientWith (failingStub "down") testConfig)).err = some "close failed" ∧
      (Client.Stop (testLibrary (failingStub "down") (some "close failed"))
        (clientWith (failingStub "down") testConfig)).closed = [{ id := 1 }]) :=
  ⟨(C9_stop (testLibrary (failingStub "down") (some "close failed"))
      (NewClient (some testConfig))).1 rfl,
   (C9_stop (testLibrary (failingStub "down") (some "close failed"))
      (clientWith (failingStub "down") testConfig)).2 { id := 1 } rfl⟩

theorem setConfig_config_ne_none (cfgs : List (Option Config)) (c : Client)
    (h : c.config ≠ none) : (cfgs.foldl Client.SetConfig c).config ≠ none := by
  induction cfgs generalizing c with
  | nil => exact h
  | cons x xs ih =>
    apply ih
    cases x with
    | none => exact h
    | some cfg => simp [Client.SetConfig]

/-- C10: `SetConfig(nil)` leaves the client as it was, all fields included;
`SetConfig(cfg)` with `cfg` not nil makes the configuration exactly `cfg` and
leaves the connection handle and the service stub as they were; a client from
`NewClient` keeps the default configuration `DefaultConfig()` pointed to, and
after `NewClient` followed by any sequence of `SetConfig` calls, nil arguments
included, the configuration is not nil. -/
theorem C10_set_config (c : Client) :
    c.SetConfig none = c ∧
    (∀ cfg : Config,
      (c.SetConfig (some cfg)).config = some cfg ∧
      (c.SetConfig (some cfg)).conn = c.conn ∧
      (c.SetConfig (some cfg)).client = c.client) ∧
    (∀ DefaultConfig : Config,
      ((NewClient (some DefaultConfig)).SetConfig none).config = some DefaultConfig) ∧
    (∀ (DefaultConfig : Config) (cfgs : List (Option Config)),
      (cfgs.foldl Client.SetConfig (NewClient (some DefaultConfig))).config ≠ none) :=
  ⟨rfl, fun _ => ⟨rfl, rfl, rfl⟩, fun _ => rfl,
   fun d cfgs => setConfig_config_ne_none cfgs (NewClient (some d)) (by simp [NewClient])⟩

end GoExecution
